import Mathlib

/-
Verification of the attribute-marshalling layer of pycryptoki
(src/pycryptoki/attributes.py) against its natural-language specification.

The module is Python 2 code built on ctypes.  The shallow embedding below
models:
  - Python runtime values that can reach the transforms (PyVal);
  - Python exception kinds raised by the code paths (PyErr); the single
    error kind the spec calls TypeConversionError is the Python TypeError
    raised by the transforms;
  - ctypes buffers as lists of byte values (CBuf.bytes) and CK_ATTRIBUTE
    arrays (CBuf.attrs); a ctypes pointer is represented by the buffer it
    points to, with the buffer's contents observable;
  - the global KEY_TRANSFORMS defaultdict as an explicit association list
    threaded through the assembly and disassembly functions, because a
    defaultdict lookup of a missing key inserts the default into the dict;
  - logging warnings as a list of warned-about keys returned alongside the
    result.

Modelling conventions, used throughout:
  - Python 2 str values are byte strings, modelled as List Nat of byte
    values (pystr maps a Lean string literal to its character codes);
  - the platform is 64-bit little-endian, so sizeof(c_ulong) = 8 and a
    c_ulong buffer holds its 8 little-endian bytes;
  - dictionaries are modelled as insertion-ordered association lists (the
    data-model section of the spec declares templates insertion-ordered;
    CPython 2 dict iteration order is hash-table order, which coincides
    with insertion order for the small integer keys used in the claims);
  - reading memory past the end of an allocated buffer (possible with
    ctypes c_char_p on a buffer with no NUL) is modelled as reading NUL
    bytes; no claim depends on out-of-bounds contents.
-/

namespace Pycryptoki

/-- Kinds of Python exceptions raised by the code under test.
The transforms raise TypeError on an input of the wrong runtime type
(the spec's single error kind, TypeConversionError); keyError models a
failed dict key lookup; valueError models range failures such as a
bytearray element outside 0..255. -/
inductive PyErr where
  | typeError
  | keyError
  | valueError
deriving DecidableEq, Repr

/-- A Python dict key as used by this module: either a str (byte string)
or an int (attribute-kind identifier). -/
inductive PyKey where
  | ks (s : List Nat)
  | ki (n : Nat)
deriving DecidableEq, Repr

/-- The Python runtime values that can reach the transforms: None, int or
long (vInt), bool, str (byte string), list of ints, datetime.date, and
dict.  A dict's entries are kept in insertion order. -/
inductive PyVal where
  | vNone
  | vInt (n : Int)
  | vBool (b : Bool)
  | vStr (s : List Nat)
  | vList (xs : List Int)
  | vDate (y m d : Nat)
  | vDict (entries : List (PyKey × PyVal))

mutual
/-- What an encode step's returned c_void_p points to: either a plain
byte buffer or a nested CK_ATTRIBUTE array (from to_sub_attributes). -/
inductive CBuf where
  | bytes (bs : List Nat) : CBuf
  | attrs (recs : List CKAttr) : CBuf
/-- One CK_ATTRIBUTE record: type field (c_ulong), pValue (NULL or a
pointer to a buffer), and the length field (named ulValueLen at
construction and read back as usValueLen by reverse transforms; one and
the same field of the external struct). -/
inductive CKAttr where
  | mk (type : Nat) (pValue : Option CBuf) (ulValueLen : Nat) : CKAttr
end

def CKAttr.type : CKAttr → Nat
  | .mk t _ _ => t

def CKAttr.pValue : CKAttr → Option CBuf
  | .mk _ p _ => p

def CKAttr.ulValueLen : CKAttr → Nat
  | .mk _ _ l => l

/-- Character codes of a Lean string literal: the model of a Python 2
byte-string literal. -/
def pystr (s : String) : List Nat := s.toList.map Char.toNat

/-- Association-list lookup, the model of a Python dict lookup (first
matching key; dicts have no duplicate keys). -/
def lookupKey {α : Type} : List (PyKey × α) → PyKey → Option α
  | [], _ => none
  | (k, v) :: rest, key => if k = key then some v else lookupKey rest key

/-- The six conversion functions of the module, as registry entries. -/
inductive Transform where
  | toLong
  | toBool
  | toCharArray
  | toCkDate
  | toByteArray
  | toSubAttributes
deriving DecidableEq, Repr

/-- The KEY_TRANSFORMS defaultdict: an association list of registered
keys in insertion order.  The default factory (returning to_byte_array)
is part of Registry.getitem below. -/
structure Registry where
  table : List (PyKey × Transform)
deriving DecidableEq, Repr

/-- Membership test: Python `key in KEY_TRANSFORMS` does not trigger the
default factory. -/
def Registry.containsKey (r : Registry) (k : PyKey) : Bool :=
  (lookupKey r.table k).isSome

/-- Subscript lookup KEY_TRANSFORMS[key]: on a missing key the
defaultdict calls the default factory and INSERTS the result, so the
lookup returns the transform together with the possibly-grown registry. -/
def Registry.getitem (r : Registry) (k : PyKey) : Transform × Registry :=
  match lookupKey r.table k with
  | some t => (t, r)
  | none => (.toByteArray, ⟨r.table ++ [(k, .toByteArray)]⟩)

/-- The registered attribute kinds, in registry order. -/
def Registry.kinds (r : Registry) : List PyKey := r.table.map Prod.fst

/-- Modelled from the spec: the numeric-constant table (the defines
module) is external to src/; the spec says the exact values are defined
by the cryptographic standard.  Standard attribute kinds carry their
PKCS#11 values; the vendor-defined kinds carry distinct values above the
vendor-defined base 0x80000000. -/
@[simp] def CKA_CLASS : Nat := 0x0
@[simp] def CKA_TOKEN : Nat := 0x1
@[simp] def CKA_PRIVATE : Nat := 0x2
@[simp] def CKA_LABEL : Nat := 0x3
@[simp] def CKA_APPLICATION : Nat := 0x10
@[simp] def CKA_VALUE : Nat := 0x11
@[simp] def CKA_CERTIFICATE_TYPE : Nat := 0x80
@[simp] def CKA_ISSUER : Nat := 0x81
@[simp] def CKA_SERIAL_NUMBER : Nat := 0x82
@[simp] def CKA_KEY_TYPE : Nat := 0x100
@[simp] def CKA_SUBJECT : Nat := 0x101
@[simp] def CKA_ID : Nat := 0x102
@[simp] def CKA_SENSITIVE : Nat := 0x103
@[simp] def CKA_ENCRYPT : Nat := 0x104
@[simp] def CKA_DECRYPT : Nat := 0x105
@[simp] def CKA_WRAP : Nat := 0x106
@[simp] def CKA_UNWRAP : Nat := 0x107
@[simp] def CKA_SIGN : Nat := 0x108
@[simp] def CKA_SIGN_RECOVER : Nat := 0x109
@[simp] def CKA_VERIFY : Nat := 0x10A
@[simp] def CKA_VERIFY_RECOVER : Nat := 0x10B
@[simp] def CKA_DERIVE : Nat := 0x10C
@[simp] def CKA_START_DATE : Nat := 0x110
@[simp] def CKA_END_DATE : Nat := 0x111
@[simp] def CKA_MODULUS : Nat := 0x120
@[simp] def CKA_MODULUS_BITS : Nat := 0x121
@[simp] def CKA_PUBLIC_EXPONENT : Nat := 0x122
@[simp] def CKA_PRIVATE_EXPONENT : Nat := 0x123
@[simp] def CKA_PRIME_1 : Nat := 0x124
@[simp] def CKA_PRIME_2 : Nat := 0x125
@[simp] def CKA_EXPONENT_1 : Nat := 0x126
@[simp] def CKA_EXPONENT_2 : Nat := 0x127
@[simp] def CKA_COEFFICIENT : Nat := 0x128
@[simp] def CKA_PRIME : Nat := 0x130
@[simp] def CKA_SUBPRIME : Nat := 0x131
@[simp] def CKA_BASE : Nat := 0x132
@[simp] def CKA_PRIME_BITS : Nat := 0x133
@[simp] def CKA_SUBPRIME_BITS : Nat := 0x134
@[simp] def CKA_VALUE_BITS : Nat := 0x160
@[simp] def CKA_VALUE_LEN : Nat := 0x161
@[simp] def CKA_EXTRACTABLE : Nat := 0x162
@[simp] def CKA_LOCAL : Nat := 0x163
@[simp] def CKA_NEVER_EXTRACTABLE : Nat := 0x164
@[simp] def CKA_ALWAYS_SENSITIVE : Nat := 0x165
@[simp] def CKA_MODIFIABLE : Nat := 0x170
@[simp] def CKA_UNWRAP_TEMPLATE : Nat := 0x212
@[simp] def CKA_DERIVE_TEMPLATE : Nat := 0x213
@[simp] def CKA_X9_31_GENERATED : Nat := 0x80000001
@[simp] def CKA_CCM_PRIVATE : Nat := 0x80000002
@[simp] def CKA_FINGERPRINT_SHA1 : Nat := 0x80000003
@[simp] def CKA_FINGERPRINT_SHA256 : Nat := 0x80000004
@[simp] def CKA_OUID : Nat := 0x80000005
@[simp] def CKA_USAGE_COUNT : Nat := 0x80000006
@[simp] def CKA_USAGE_LIMIT : Nat := 0x80000007
@[simp] def CKA_EKM_UID : Nat := 0x80000008
@[simp] def CKA_GENERIC_1 : Nat := 0x80000009
@[simp] def CKA_GENERIC_2 : Nat := 0x8000000A
@[simp] def CKA_GENERIC_3 : Nat := 0x8000000B

/-- The initial contents of KEY_TRANSFORMS, exactly the table the module
installs at import time (attributes.py lines 244-314). -/
def KEY_TRANSFORMS : Registry :=
  ⟨[(.ki CKA_CLASS, .toLong),
    (.ki CKA_CERTIFICATE_TYPE, .toLong),
    (.ki CKA_KEY_TYPE, .toLong),
    (.ki CKA_VALUE_LEN, .toLong),
    (.ki CKA_MODULUS_BITS, .toLong),
    (.ki CKA_PRIME_BITS, .toLong),
    (.ki CKA_SUBPRIME_BITS, .toLong),
    (.ki CKA_VALUE_BITS, .toLong),
    (.ki CKA_TOKEN, .toBool),
    (.ki CKA_PRIVATE, .toBool),
    (.ki CKA_SENSITIVE, .toBool),
    (.ki CKA_ENCRYPT, .toBool),
    (.ki CKA_DECRYPT, .toBool),
    (.ki CKA_WRAP, .toBool),
    (.ki CKA_UNWRAP, .toBool),
    (.ki CKA_SIGN, .toBool),
    (.ki CKA_SIGN_RECOVER, .toBool),
    (.ki CKA_VERIFY, .toBool),
    (.ki CKA_VERIFY_RECOVER, .toBool),
    (.ki CKA_DERIVE, .toBool),
    (.ki CKA_CCM_PRIVATE, .toBool),
    (.ki CKA_LOCAL, .toBool),
    (.ki CKA_MODIFIABLE, .toBool),
    (.ki CKA_EXTRACTABLE, .toBool),
    (.ki CKA_ALWAYS_SENSITIVE, .toBool),
    (.ki CKA_NEVER_EXTRACTABLE, .toBool),
    (.ki CKA_X9_31_GENERATED, .toBool),
    (.ki CKA_LABEL, .toCharArray),
    (.ki CKA_APPLICATION, .toCharArray),
    (.ki CKA_ISSUER, .toCharArray),
    (.ki CKA_SUBJECT, .toCharArray),
    (.ki CKA_ID, .toCharArray),
    (.ki CKA_EKM_UID, .toCharArray),
    (.ki CKA_GENERIC_1, .toCharArray),
    (.ki CKA_GENERIC_2, .toCharArray),
    (.ki CKA_GENERIC_3, .toCharArray),
    (.ki CKA_START_DATE, .toCkDate),
    (.ki CKA_END_DATE, .toCkDate),
    (.ki CKA_VALUE, .toByteArray),
    (.ki CKA_SERIAL_NUMBER, .toByteArray),
    (.ki CKA_MODULUS, .toByteArray),
    (.ki CKA_PUBLIC_EXPONENT, .toByteArray),
    (.ki CKA_PRIVATE_EXPONENT, .toByteArray),
    (.ki CKA_PRIME_1, .toByteArray),
    (.ki CKA_PRIME_2, .toByteArray),
    (.ki CKA_EXPONENT_1, .toByteArray),
    (.ki CKA_EXPONENT_2, .toByteArray),
    (.ki CKA_COEFFICIENT, .toByteArray),
    (.ki CKA_PRIME, .toByteArray),
    (.ki CKA_SUBPRIME, .toByteArray),
    (.ki CKA_BASE, .toByteArray),
    (.ki CKA_FINGERPRINT_SHA1, .toByteArray),
    (.ki CKA_FINGERPRINT_SHA256, .toByteArray),
    (.ki CKA_USAGE_COUNT, .toByteArray),
    (.ki CKA_USAGE_LIMIT, .toByteArray),
    (.ki CKA_OUID, .toByteArray),
    (.ki CKA_UNWRAP_TEMPLATE, .toSubAttributes),
    (.ki CKA_DERIVE_TEMPLATE, .toSubAttributes)]⟩

/-- Platform size of a C unsigned long (64-bit platform). -/
def sizeof_ulong : Nat := 8

/-- The little-endian bytes of a value stored in a fixed-width C
integer: leBytes n k is the k in-memory bytes of n. -/
def leBytes (n : Nat) : Nat → List Nat
  | 0 => []
  | k + 1 => n % 256 :: leBytes (n / 256) k

/-- Reassemble a little-endian byte list into a value (reading a C
integer back out of memory). -/
def leVal : List Nat → Nat
  | [] => 0
  | b :: bs => b + 256 * leVal bs

/-- Value of a big-endian digit list in base k (how Python's int(x, base)
reads an unsigned digit string, and how a big-endian byte array reads as
an integer). -/
def baseVal (k : Nat) (l : List Nat) : Nat :=
  l.foldl (fun a d => k * a + d) 0

/-- Python's n.bit_length() for a non-negative n: 0 for 0, otherwise the
number of binary digits. -/
def pyBitLength (n : Nat) : Nat :=
  if h : n = 0 then 0 else pyBitLength (n / 2) + 1
termination_by n
decreasing_by exact Nat.div_lt_self (Nat.pos_of_ne_zero h) (by omega)

/-- The binary digits (as values 0/1, most significant first) of a
positive number; empty for 0. -/
def binDigitsCore (n : Nat) : List Nat :=
  if h : n = 0 then [] else binDigitsCore (n / 2) ++ [n % 2]
termination_by n
decreasing_by exact Nat.div_lt_self (Nat.pos_of_ne_zero h) (by omega)

/-- Binary digits of a non-negative number as Python's format writes
them: at least one digit, so 0 renders as a single 0 digit. -/
def binDigits (n : Nat) : List Nat :=
  if n = 0 then [0] else binDigitsCore n

/-- Left-pad a digit list with zeros to the given width (no truncation
when the list is already longer), as zero-padded string formatting. -/
def padZeros (w : Nat) (l : List Nat) : List Nat :=
  List.replicate (w - l.length) 0 ++ l

/-- The character list produced by formatting an int with the zero-padded
binary format spec of to_byte_array; digits are stored as their values
0/1 and a leading minus sign of a negative number as its character code
45 (the sign counts toward the requested width, and zero-padding goes
between the sign and the digits). -/
def pyFormatBin (v : Int) (width : Nat) : List Nat :=
  if v < 0 then 45 :: padZeros (width - 1) (binDigits v.natAbs)
  else padZeros width (binDigits v.toNat)

/-- The 8-character slices of to_byte_array: str_val[i:i+8] for i in
steps of 8. -/
def chunk8 : List Nat → List (List Nat)
  | [] => []
  | a :: rest => ((a :: rest).take 8) :: chunk8 ((a :: rest).drop 8)
termination_by l => l.length
decreasing_by simp [List.drop]; omega

/-- The 2-character slices of to_byte_array's hex branch: val[i:i+2]. -/
def chunk2 : List Nat → List (List Nat)
  | [] => []
  | a :: rest => ((a :: rest).take 2) :: chunk2 ((a :: rest).drop 2)
termination_by l => l.length
decreasing_by simp [List.drop]; omega

/-- Python's int(x, 2) applied to the slices produced by pyFormatBin:
a leading minus character (code 45) negates the value of the remaining
binary digits.  Only the digit shapes that pyFormatBin can produce are
read back (no claim feeds other strings to this parse). -/
def int_base2 : List Nat → Int
  | 45 :: rest => -(baseVal 2 rest : Int)
  | l => (baseVal 2 l : Int)

/-- Hex value of one character code, as int(x, 16) reads a digit:
0-9, a-f, A-F.  int()'s tolerance of surrounding whitespace and signs in
a slice is not modelled; no claim depends on it. -/
def hexDigit (c : Nat) : Option Nat :=
  if 48 ≤ c ∧ c ≤ 57 then some (c - 48)
  else if 97 ≤ c ∧ c ≤ 102 then some (c - 87)
  else if 65 ≤ c ∧ c ≤ 70 then some (c - 55)
  else none

/-- Python's int(x, 16) on a 1- or 2-character slice: some value when
every character is a hex digit, none for the ValueError case. -/
def hexSlice : List Nat → Option Nat
  | [] => none
  | [c] => hexDigit c
  | [c, d] =>
    match hexDigit c, hexDigit d with
    | some hc, some hd => some (16 * hc + hd)
    | _, _ => none
  | _ => none

/-- ctypes create_string_buffer(s) for a byte string s: a buffer one
byte larger than s, NUL-terminated; sizeof is the buffer length. -/
def create_string_buffer (s : List Nat) : List Nat := s ++ [0]

/-- ctypes c_char_p(...).value on a buffer: the bytes before the first
NUL.  A buffer containing no NUL would be read past its end; memory past
the buffer is modelled as NUL. -/
def c_char_p_value (bs : List Nat) : List Nat :=
  bs.takeWhile (fun b => b ≠ 0)

/-- Wrap an int into a c_ulong (ctypes masks, no overflow checking). -/
def c_ulong_of (n : Int) : Nat := (n % (2 ^ 64 : Int)).toNat

/-- CK_ATTRIBUTE_TYPE(key): a c_ulong built from the dict key.  An int
key is masked to 64 bits; a str key raises TypeError. -/
def ck_attribute_type : PyKey → Except PyErr Nat
  | .ki n => .ok (n % 2 ^ 64)
  | .ks _ => .error .typeError

/-- Decimal digits of n, at least one digit, most significant first. -/
def decDigitsCore (n : Nat) : List Nat :=
  if h : n = 0 then [] else decDigitsCore (n / 10) ++ [48 + n % 10]
termination_by n
decreasing_by exact Nat.div_lt_self (Nat.pos_of_ne_zero h) (by omega)

/-- Decimal rendering of n zero-padded to width w (character codes). -/
def padDec (w : Nat) (n : Nat) : List Nat :=
  padZeros' w (if n = 0 then [48] else decDigitsCore n)
where
  /-- pad with character 48 rather than digit value 0 -/
  padZeros' (w : Nat) (l : List Nat) : List Nat :=
    List.replicate (w - l.length) 48 ++ l

/-- datetime.date.strftime of the YYYYMMDD format: year, month and day
rendered zero-padded to 4/2/2 digits.  datetime.date guarantees
1 <= year <= 9999 and two-digit month and day; zero-padding of years
below 1000 is C-library-dependent, and the claims only use years where
padding does not arise. -/
def strftime_Ymd (y m d : Nat) : List Nat :=
  padDec 4 y ++ padDec 2 m ++ padDec 2 d

/-- A successful encode: the buffer the returned c_void_p points to,
and the returned length. -/
abbrev EncRes := CBuf × Nat

/-- to_long, forward direction (attributes.py lines 91-96): accepts int
or long (a Python bool is an int subtype and passes isinstance), wraps
into a CK_ULONG, returns its pointer and sizeof; any other runtime type
raises TypeError. -/
def to_long_enc : PyVal → Except PyErr EncRes
  | .vInt n => .ok (.bytes (leBytes (c_ulong_of n) sizeof_ulong), sizeof_ulong)
  | .vBool b => .ok (.bytes (leBytes (if b then 1 else 0) sizeof_ulong), sizeof_ulong)
  | _ => .error .typeError

/-- to_long, reverse direction (line 92): reinterpret the record's
pValue as a pointer to c_ulong and read its value (8 bytes; a buffer
shorter than 8 would be read past its end, modelled as NUL bytes).
A NULL pValue raises ctypes ValueError (NULL pointer access); a pValue
holding a nested record array would be a memory reinterpretation outside
the model and is unreachable in the claims. -/
def to_long_dec : CKAttr → Except PyErr PyVal
  | .mk _ (some (.bytes bs)) _ => .ok (.vInt (leVal (bs.take 8)))
  | .mk _ (some (.attrs _)) _ => .error .typeError
  | .mk _ none _ => .error .valueError

/-- to_bool, forward direction (lines 108-115): accepts int or bool,
normalizes truthiness to one byte holding 0 or 1 (CK_BBOOL is one byte);
other types raise TypeError. -/
def to_bool_enc : PyVal → Except PyErr EncRes
  | .vInt n => .ok (.bytes [if n = 0 then 0 else 1], 1)
  | .vBool b => .ok (.bytes [if b then 1 else 0], 1)
  | _ => .error .typeError

/-- to_bool, reverse direction (line 109): read one byte as c_bool
(nonzero means True). -/
def to_bool_dec : CKAttr → Except PyErr PyVal
  | .mk _ (some (.bytes bs)) _ => .ok (.vBool (bs.headD 0 ≠ 0))
  | .mk _ (some (.attrs _)) _ => .error .typeError
  | .mk _ none _ => .error .valueError

/-- to_char_array, forward direction (lines 133-141): accepts str or
list; a str is copied into a NUL-terminated buffer of sizeof length+1;
the list branch builds a bytearray (ValueError if an element is outside
0..255) and then calls ctypes pointer() on it, which raises TypeError
because a bytearray is not a ctypes instance; other types raise
TypeError from the isinstance check. -/
def to_char_array_enc : PyVal → Except PyErr EncRes
  | .vStr s =>
      let b := create_string_buffer s
      .ok (.bytes b, b.length)
  | .vList xs =>
      if xs.all (fun x => 0 ≤ x ∧ x < 256) then .error .typeError
      else .error .valueError
  | _ => .error .typeError

/-- to_char_array, reverse direction (line 131): c_char_p .value
truncates at the first NUL byte, and the result is sliced to the
record's length field. -/
def to_char_array_dec : CKAttr → Except PyErr PyVal
  | .mk _ (some (.bytes bs)) len => .ok (.vStr ((c_char_p_value bs).take len))
  | .mk _ (some (.attrs _)) _ => .error .typeError
  | .mk _ none _ => .error .valueError

/-- Python binary + on the value shapes that can appear in a date dict:
str concatenation, int addition (bools count as ints), list
concatenation; mixed shapes raise TypeError. -/
def pyAdd : PyVal → PyVal → Except PyErr PyVal
  | .vStr a, .vStr b => .ok (.vStr (a ++ b))
  | .vInt a, .vInt b => .ok (.vInt (a + b))
  | .vInt a, .vBool b => .ok (.vInt (a + if b then 1 else 0))
  | .vBool a, .vInt b => .ok (.vInt ((if a then 1 else 0) + b))
  | .vBool a, .vBool b => .ok (.vInt ((if a then 1 else 0) + (if b then 1 else 0)))
  | .vList a, .vList b => .ok (.vList (a ++ b))
  | _, _ => .error .typeError

/-- create_string_buffer applied to whatever the date-dict concatenation
produced: a str gives a NUL-terminated copy; an int n gives a zero-filled
buffer of n bytes (negative raises ValueError); anything else raises
TypeError. -/
def create_string_buffer_py : PyVal → Except PyErr (List Nat)
  | .vStr s => .ok (create_string_buffer s)
  | .vInt n => if n < 0 then .error .valueError else .ok (List.replicate n.toNat 0)
  | _ => .error .typeError

/-- to_ck_date, forward direction (lines 157-169): an 8-character string
is buffered (TypeError when the length is not 8); a dict is read as
val['year'] + val['month'] + val['day'] (KeyError on a missing key,
TypeError on a mixed-type +) and the concatenation buffered; a
datetime.date is formatted as YYYYMMDD and buffered; other types raise
TypeError.  The buffer always carries create_string_buffer's trailing
NUL, so its sizeof is one more than the text length. -/
def to_ck_date_enc : PyVal → Except PyErr EncRes
  | .vStr s =>
      if s.length ≠ 8 then .error .typeError
      else
        let b := create_string_buffer s
        .ok (.bytes b, b.length)
  | .vDict entries =>
      match lookupKey entries (.ks (pystr "year")) with
      | none => .error .keyError
      | some y =>
        match lookupKey entries (.ks (pystr "month")) with
        | none => .error .keyError
        | some m =>
          match pyAdd y m with
          | .error e => .error e
          | .ok ym =>
            match lookupKey entries (.ks (pystr "day")) with
            | none => .error .keyError
            | some d =>
              match pyAdd ym d with
              | .error e => .error e
              | .ok ymd =>
                match create_string_buffer_py ymd with
                | .error e => .error e
                | .ok b => .ok (.bytes b, b.length)
  | .vDate y m d =>
      let b := create_string_buffer (strftime_Ymd y m d)
      .ok (.bytes b, b.length)
  | _ => .error .typeError

/-- to_ck_date, reverse direction (line 155): identical to
to_char_array's reverse path. -/
def to_ck_date_dec : CKAttr → Except PyErr PyVal
  | .mk _ (some (.bytes bs)) len => .ok (.vStr ((c_char_p_value bs).take len))
  | .mk _ (some (.attrs _)) _ => .error .typeError
  | .mk _ none _ => .error .valueError

/-- The int branch of to_byte_array (lines 193-203), shared by int and
bool inputs: width is the bit length rounded so that a whole multiple of
8 is kept as is, the value is formatted as a zero-padded binary string of
that width, the string is sliced into 8-character chunks, and each chunk
is parsed with int(x, 2) and masked into a CK_BYTE. -/
def to_byte_array_int (n : Int) : EncRes :=
  let width := pyBitLength n.natAbs + (8 - (if pyBitLength n.natAbs % 8 = 0 then 8 else pyBitLength n.natAbs % 8))
  let str_val := pyFormatBin n width
  let str_array := chunk8 str_val
  (.bytes (str_array.map (fun c => (int_base2 c % 256).toNat)), str_array.length)

/-- to_byte_array, forward direction (lines 190-219): a list becomes a
bytearray (ValueError when an element is outside 0..255) copied into a
CK_BYTE array of the same length; an int or bool goes through the binary
string pipeline of to_byte_array_int; a str is first tried as a hex
string, two characters per byte, into a CK_BYTE array allocated with ONE
SLOT PER CHARACTER of the input (the slots beyond the parsed values stay
zero-initialized), and on any non-hex slice falls back to the raw bytes
of the string; other types raise TypeError. -/
def to_byte_array_enc : PyVal → Except PyErr EncRes
  | .vList xs =>
      if xs.all (fun x => 0 ≤ x ∧ x < 256) then
        .ok (.bytes (xs.map Int.toNat), xs.length)
      else .error .valueError
  | .vInt n => .ok (to_byte_array_int n)
  | .vBool b => .ok (to_byte_array_int (if b then 1 else 0))
  | .vStr s =>
      let hex_array := chunk2 s
      if (hex_array.map hexSlice).all Option.isSome then
        let vals := (hex_array.map hexSlice).map (fun o => o.getD 0)
        .ok (.bytes (vals ++ List.replicate (s.length - vals.length) 0), s.length)
      else
        .ok (.bytes s, s.length)
  | _ => .error .typeError

/-- to_byte_array, reverse direction (line 188): the same c_char_p
slice as to_char_array's reverse path; the result stays a byte string. -/
def to_byte_array_dec : CKAttr → Except PyErr PyVal
  | .mk _ (some (.bytes bs)) len => .ok (.vStr ((c_char_p_value bs).take len))
  | .mk _ (some (.attrs _)) _ => .error .typeError
  | .mk _ none _ => .error .valueError

/-- The keyword argument name that Attributes.__init__ pops. -/
def ntName : List Nat := pystr "new_transforms"

/-- kwargs.pop of the new_transforms keyword when a dict is expanded
into Attributes(**val): the remaining entries. -/
def popNT : List (PyKey × PyVal) → List (PyKey × PyVal)
  | [] => []
  | e :: rest => if e.1 = .ks ntName then popNT rest else e :: popNT rest

mutual
/-- Apply one registry transform in the forward direction.  The scalar
transforms are pure; to_sub_attributes reads and can grow the global
registry and can log warnings, so the dispatch threads the registry and
returns the list of warned-about keys. -/
def applyEnc (t : Transform) (v : PyVal) (reg : Registry) :
    (Except PyErr EncRes) × Registry × List PyKey :=
  match t with
  | .toLong => (to_long_enc v, reg, [])
  | .toBool => (to_bool_enc v, reg, [])
  | .toCharArray => (to_char_array_enc v, reg, [])
  | .toCkDate => (to_ck_date_enc v, reg, [])
  | .toByteArray => (to_byte_array_enc v, reg, [])
  | .toSubAttributes => to_sub_attributes_enc v reg
termination_by (sizeOf v, 1)

/-- to_sub_attributes, forward direction (lines 233-238): a non-dict
raises TypeError; a dict is expanded as Attributes(**val), and CPython's
keyword expansion raises TypeError (keywords must be strings) when any
key is not a string; otherwise the new_transforms keyword is popped and
the nested template is assembled by get_c_struct (with an empty
override map; the popped value is installed as the nested instance's
override attribute, a corner none of the claims reach because every
remaining string key makes CK_ATTRIBUTE_TYPE raise first).  On success
the returned length is len(attrs), the RECORD COUNT of the nested
array, not its byte size. -/
def to_sub_attributes_enc (v : PyVal) (reg : Registry) :
    (Except PyErr EncRes) × Registry × List PyKey :=
  match v with
  | .vDict entries =>
      if entries.any (fun e => match e.1 with | .ki _ => true | .ks _ => false) then
        (.error .typeError, reg, [])
      else
        match get_c_struct (popNT entries) [] reg with
        | (.error e, reg2, warns) => (.error e, reg2, warns)
        | (.ok recs, reg2, warns) => (.ok (.attrs recs, recs.length), reg2, warns)
  | _ => (.error .typeError, reg, [])
termination_by (sizeOf v, 0)
decreasing_by
  have hle : ∀ l : List (PyKey × PyVal), sizeOf (popNT l) ≤ sizeOf l := by
    intro l
    induction l with
    | nil => simp [popNT]
    | cons e rest ih =>
      simp only [popNT]
      split <;> simp <;> omega
  have h := hle entries
  simp_wf
  apply Prod.Lex.left
  omega

/-- Attributes.get_c_struct (lines 358-386), the assemble step: walk the
template entries in order.  A None value yields a blank record (NULL
pointer, zero length).  Otherwise the per-instance override map is
consulted first, then the global registry; in the registry branch a
warning is logged when the key is not yet registered, and the defaultdict
subscript lookup itself registers the default transform for a missing
key.  The encode runs before CK_ATTRIBUTE_TYPE(key) is evaluated, as in
the source's statement order.  Returns the record list (or the first
exception), the final registry, and the warned-about keys in order. -/
def get_c_struct (entries : List (PyKey × PyVal)) (nt : List (PyKey × Transform))
    (reg : Registry) : (Except PyErr (List CKAttr)) × Registry × List PyKey :=
  match entries with
  | [] => (.ok [], reg, [])
  | (key, value) :: rest =>
    match value with
    | .vNone =>
      match ck_attribute_type key with
      | .error e => (.error e, reg, [])
      | .ok tv =>
        match get_c_struct rest nt reg with
        | (.error e, reg2, w) => (.error e, reg2, w)
        | (.ok recs, reg2, w) => (.ok (.mk tv none 0 :: recs), reg2, w)
    | v2 =>
      match lookupKey nt key with
      | some t =>
        match applyEnc t v2 reg with
        | (.error e, reg1, w1) => (.error e, reg1, w1)
        | (.ok (buf, len), reg1, w1) =>
          match ck_attribute_type key with
          | .error e => (.error e, reg1, w1)
          | .ok tv =>
            match get_c_struct rest nt reg1 with
            | (.error e, reg2, w2) => (.error e, reg2, w1 ++ w2)
            | (.ok recs, reg2, w2) => (.ok (.mk tv (some buf) len :: recs), reg2, w1 ++ w2)
      | none =>
        let warn := if reg.containsKey key then [] else [key]
        let tr := reg.getitem key
        match applyEnc tr.1 v2 tr.2 with
        | (.error e, reg1, w1) => (.error e, reg1, warn ++ w1)
        | (.ok (buf, len), reg1, w1) =>
          match ck_attribute_type key with
          | .error e => (.error e, reg1, warn ++ w1)
          | .ok tv =>
            match get_c_struct rest nt reg1 with
            | (.error e, reg2, w2) => (.error e, reg2, warn ++ w1 ++ w2)
            | (.ok recs, reg2, w2) => (.ok (.mk tv (some buf) len :: recs), reg2, warn ++ w1 ++ w2)
termination_by (sizeOf entries, 2)
end

/-- Python dict assignment py_data[k] = v: overwrite in place when the
key exists, append otherwise. -/
def dictInsert : List (Nat × PyVal) → Nat → PyVal → List (Nat × PyVal)
  | [], k, v => [(k, v)]
  | (k0, v0) :: rest, k, v =>
    if k0 = k then (k0, v) :: rest else (k0, v0) :: dictInsert rest k v

/-- Apply one registry transform in the reverse direction.
to_sub_attributes' reverse path (line 232) passes the cast POINTER to
c_struct_to_python, whose len(c_struct) call raises TypeError (a ctypes
pointer instance has no len()), so the composite reverse direction
always raises regardless of the record. -/
def applyDec (t : Transform) (a : CKAttr) : Except PyErr PyVal :=
  match t with
  | .toLong => to_long_dec a
  | .toBool => to_bool_dec a
  | .toCharArray => to_char_array_dec a
  | .toCkDate => to_ck_date_dec a
  | .toByteArray => to_byte_array_dec a
  | .toSubAttributes => .error .typeError

/-- The iteration of c_struct_to_python with the partially built dict:
a record with NULL pValue maps its type to None without consulting the
registry; otherwise the defaultdict subscript (which registers missing
kinds) selects the transform and the record is decoded in reverse mode. -/
def c_struct_to_python_loop : List CKAttr → Registry → List (Nat × PyVal) →
    (Except PyErr (List (Nat × PyVal))) × Registry
  | [], reg, acc => (.ok acc, reg)
  | a :: rest, reg, acc =>
    match a.pValue with
    | none => c_struct_to_python_loop rest reg (dictInsert acc a.type .vNone)
    | some _ =>
      let tr := reg.getitem (.ki a.type)
      match applyDec tr.1 a with
      | .error e => (.error e, tr.2)
      | .ok v => c_struct_to_python_loop rest tr.2 (dictInsert acc a.type v)

/-- c_struct_to_python (lines 399-413), the disassemble step: build the
python dict from a record array, returning it (or the first exception)
together with the final registry state. -/
def c_struct_to_python (recs : List CKAttr) (reg : Registry) :
    (Except PyErr (List (Nat × PyVal))) × Registry :=
  c_struct_to_python_loop recs reg []

/-- The runtime types each transform's forward direction accepts, read
off the isinstance guards in the source: to_long int/long (line 93, a
bool passes because Python bool subclasses int), to_bool int/bool (line
111), to_char_array str/list (line 133), to_ck_date str/dict/date
(lines 157-166), to_byte_array list/int/str (lines 190-205, bool again
as an int), to_sub_attributes dict (line 233). -/
def acceptedType : Transform → PyVal → Bool
  | .toLong, .vInt _ => true
  | .toLong, .vBool _ => true
  | .toBool, .vInt _ => true
  | .toBool, .vBool _ => true
  | .toCharArray, .vStr _ => true
  | .toCharArray, .vList _ => true
  | .toCkDate, .vStr _ => true
  | .toCkDate, .vDict _ => true
  | .toCkDate, .vDate _ _ _ => true
  | .toByteArray, .vList _ => true
  | .toByteArray, .vInt _ => true
  | .toByteArray, .vBool _ => true
  | .toByteArray, .vStr _ => true
  | .toSubAttributes, .vDict _ => true
  | _, _ => false

/-- Modelled from the spec: the claim's rounding rule for the byte-array
integer branch, padded_width = bit_length + (8 - (bit_length % 8 or 8)). -/
def paddedWidth (bl : Nat) : Nat :=
  bl + (8 - (if bl % 8 = 0 then 8 else bl % 8))

/-- The template of the end-to-end scenario:
Template with CLASS: 3, TOKEN: True, LABEL: "mykey". -/
def c3_template : List (PyKey × PyVal) :=
  [(.ki CKA_CLASS, .vInt 3),
   (.ki CKA_TOKEN, .vBool true),
   (.ki CKA_LABEL, .vStr (pystr "mykey"))]

/- General lemmas about the helper functions. -/

theorem lookupKey_append {α : Type} (l1 l2 : List (PyKey × α)) (k : PyKey) :
    lookupKey (l1 ++ l2) k =
      match lookupKey l1 k with
      | some v => some v
      | none => lookupKey l2 k := by
  induction l1 with
  | nil => simp [lookupKey]
  | cons e rest ih =>
    obtain ⟨k0, v0⟩ := e
    simp only [List.cons_append, lookupKey]
    split <;> simp [ih]

theorem foldl_base (k a : Nat) (l : List Nat) :
    l.foldl (fun x d => k * x + d) a = a * k ^ l.length + baseVal k l := by
  induction l generalizing a with
  | nil => simp [baseVal]
  | cons d t ih =>
    simp only [List.foldl_cons, List.length_cons, baseVal]
    rw [ih (k * a + d), ih (k * 0 + d)]
    ring

theorem baseVal_cons (k d : Nat) (t : List Nat) :
    baseVal k (d :: t) = d * k ^ t.length + baseVal k t := by
  have h : baseVal k (d :: t) = List.foldl (fun a d => k * a + d) (k * 0 + d) t := rfl
  rw [h, foldl_base]
  ring

theorem baseVal_append (k : Nat) (xs ys : List Nat) :
    baseVal k (xs ++ ys) = baseVal k xs * k ^ ys.length + baseVal k ys := by
  have h : baseVal k (xs ++ ys) = List.foldl (fun a d => k * a + d) (baseVal k xs) ys := by
    simp only [baseVal, List.foldl_append]
  rw [h, foldl_base]

theorem baseVal_append_single (k : Nat) (xs : List Nat) (d : Nat) :
    baseVal k (xs ++ [d]) = k * baseVal k xs + d := by
  rw [baseVal_append]
  simp [baseVal]
  ring

theorem baseVal_replicate_zero (k j : Nat) :
    baseVal k (List.replicate j 0) = 0 := by
  induction j with
  | zero => simp [baseVal]
  | succ j ih =>
    rw [List.replicate_succ, baseVal_cons, ih]
    simp

theorem baseVal_pad (k w : Nat) (l : List Nat) :
    baseVal k (padZeros w l) = baseVal k l := by
  rw [padZeros, baseVal_append, baseVal_replicate_zero]
  simp

theorem padZeros_length (w : Nat) (l : List Nat) (h : l.length ≤ w) :
    (padZeros w l).length = w := by
  simp [padZeros]
  omega

theorem pyBitLength_pos (n : Nat) (h : 0 < n) : 0 < pyBitLength n := by
  unfold pyBitLength
  split <;> omega

theorem binDigitsCore_length (n : Nat) : (binDigitsCore n).length = pyBitLength n := by
  induction n using binDigitsCore.induct with
  | case1 =>
    unfold binDigitsCore pyBitLength
    simp
  | case2 n h ih =>
    unfold binDigitsCore pyBitLength
    simp [h, ih]

theorem binDigitsCore_val (n : Nat) : baseVal 2 (binDigitsCore n) = n := by
  induction n using binDigitsCore.induct with
  | case1 =>
    unfold binDigitsCore
    simp [baseVal]
  | case2 n h ih =>
    unfold binDigitsCore
    simp only [h, dite_false]
    rw [baseVal_append_single, ih]
    omega

theorem binDigitsCore_mem (n d : Nat) (hd : d ∈ binDigitsCore n) : d ≤ 1 := by
  induction n using binDigitsCore.induct with
  | case1 =>
    unfold binDigitsCore at hd
    simp at hd
  | case2 n h ih =>
    unfold binDigitsCore at hd
    simp only [h, dite_false, List.mem_append] at hd
    rcases hd with hd | hd
    · exact ih hd
    · simp at hd
      omega

theorem padZeros_mem (w : Nat) (l : List Nat) (d : Nat) (hd : d ∈ padZeros w l) :
    d ∈ l ∨ d = 0 := by
  rw [padZeros, List.mem_append] at hd
  rcases hd with hd | hd
  · right
    exact List.eq_of_mem_replicate hd
  · left
    exact hd

theorem baseVal_lt_of_bits (l : List Nat) (h : ∀ d ∈ l, d ≤ 1) :
    baseVal 2 l < 2 ^ l.length := by
  induction l with
  | nil => simp [baseVal]
  | cons d t ih =>
    rw [baseVal_cons]
    have hd : d ≤ 1 := h d (by simp)
    have ht : baseVal 2 t < 2 ^ t.length := ih (fun x hx => h x (by simp [hx]))
    have hmul : d * 2 ^ t.length ≤ 2 ^ t.length := by
      calc d * 2 ^ t.length ≤ 1 * 2 ^ t.length := Nat.mul_le_mul_right _ hd
        _ = 2 ^ t.length := by ring
    calc d * 2 ^ t.length + baseVal 2 t < d * 2 ^ t.length + 2 ^ t.length := by omega
      _ ≤ 2 ^ t.length + 2 ^ t.length := by omega
      _ = 2 ^ (t.length + 1) := by ring
      _ = 2 ^ (d :: t).length := by simp

theorem chunk8_mem (l c : List Nat) (d : Nat) (hc : c ∈ chunk8 l) (hd : d ∈ c) : d ∈ l := by
  induction l using chunk8.induct with
  | case1 =>
    unfold chunk8 at hc
    simp at hc
  | case2 a rest ih =>
    unfold chunk8 at hc
    rcases List.mem_cons.mp hc with hc | hc
    · subst hc
      exact List.take_subset 8 _ hd
    · exact List.drop_subset 8 (a :: rest) (ih hc)

theorem chunk8_len_mul (l : List Nat) (h : l.length % 8 = 0) :
    (chunk8 l).length * 8 = l.length := by
  induction l using chunk8.induct with
  | case1 =>
    unfold chunk8
    simp
  | case2 a rest ih =>
    unfold chunk8
    have hdm : ((a :: rest).drop 8).length % 8 = 0 := by
      simp only [List.length_drop, List.length_cons] at h ⊢
      omega
    have hih := ih hdm
    simp only [List.length_cons, List.length_drop] at h hih ⊢
    omega

theorem chunk8_chunk_length (l c : List Nat) (h : l.length % 8 = 0) (hc : c ∈ chunk8 l) :
    c.length = 8 := by
  induction l using chunk8.induct with
  | case1 =>
    unfold chunk8 at hc
    simp at hc
  | case2 a rest ih =>
    unfold chunk8 at hc
    have h8 : 8 ≤ (a :: rest).length := by
      simp only [List.length_cons] at h ⊢
      omega
    rcases List.mem_cons.mp hc with hc | hc
    · subst hc
      simp only [List.length_take]
      omega
    · have hdm : ((a :: rest).drop 8).length % 8 = 0 := by
        simp only [List.length_drop, List.length_cons] at h ⊢
        omega
      exact ih hdm hc

theorem int_base2_of_bits (c : List Nat) (h : ∀ d ∈ c, d ≤ 1) :
    int_base2 c = (baseVal 2 c : Int) := by
  unfold int_base2
  split
  · rename_i rest
    have h45 := h 45 (by simp)
    omega
  · rfl

theorem emod256_toNat_lt (z : Int) : (z % 256).toNat < 256 := by
  have h1 : z % 256 < 256 := Int.emod_lt_of_pos z (by omega)
  omega

theorem beVal_chunks (l : List Nat) (h8 : l.length % 8 = 0) (hb : ∀ d ∈ l, d ≤ 1) :
    baseVal 256 ((chunk8 l).map (fun c => (int_base2 c % 256).toNat)) = baseVal 2 l := by
  induction l using chunk8.induct with
  | case1 =>
    unfold chunk8
    simp [baseVal]
  | case2 a rest ih =>
    unfold chunk8
    have h8l : 8 <= (a :: rest).length := by
      simp only [List.length_cons]
      simp only [List.length_cons] at h8
      omega
    have htb : ∀ d ∈ (a :: rest).take 8, d ≤ 1 :=
      fun d hd => hb d (List.take_subset 8 _ hd)
    have hdb : ∀ d ∈ (a :: rest).drop 8, d ≤ 1 :=
      fun d hd => hb d (List.drop_subset 8 _ hd)
    have hdm : ((a :: rest).drop 8).length % 8 = 0 := by
      simp only [List.length_drop, List.length_cons] at h8 ⊢
      omega
    have htl : ((a :: rest).take 8).length = 8 := by
      simp only [List.length_take]
      omega
    have hval : int_base2 ((a :: rest).take 8) = (baseVal 2 ((a :: rest).take 8) : Int) :=
      int_base2_of_bits _ htb
    have hlt : baseVal 2 ((a :: rest).take 8) < 256 := by
      have := baseVal_lt_of_bits _ htb
      rw [htl] at this
      omega
    have hmod : ((int_base2 ((a :: rest).take 8)) % 256).toNat = baseVal 2 ((a :: rest).take 8) := by
      rw [hval]
      rw [Int.emod_eq_of_lt (by omega) (by omega)]
      simp
    rw [List.map_cons, baseVal_cons, hmod, ih hdm hdb, List.length_map]
    have hjoin : baseVal 2 ((a :: rest).take 8 ++ (a :: rest).drop 8) = baseVal 2 (a :: rest) := by
      rw [List.take_append_drop]
    rw [← hjoin, baseVal_append]
    have hdrop8 : ((a :: rest).drop 8).length = (a :: rest).length - 8 := by
      simp [List.length_drop]
    have hchunks : (chunk8 ((a :: rest).drop 8)).length * 8 = ((a :: rest).drop 8).length :=
      chunk8_len_mul _ hdm
    have hpow : (256 : Nat) ^ (chunk8 ((a :: rest).drop 8)).length = 2 ^ ((a :: rest).drop 8).length := by
      have h256 : (256 : Nat) = 2 ^ 8 := by norm_num
      rw [h256, ← Nat.pow_mul]
      congr 1
      omega
    rw [hpow]

theorem decDigitsCore_length_le (k n : Nat) (h : n < 10 ^ k) :
    (decDigitsCore n).length ≤ k := by
  induction k generalizing n with
  | zero =>
    unfold decDigitsCore
    simp at h
    simp [h]
  | succ k ih =>
    unfold decDigitsCore
    split
    · simp
    · rename_i hn
      have hdiv : n / 10 < 10 ^ k := by
        apply Nat.div_lt_of_lt_mul
        have hp : 10 ^ (k + 1) = 10 ^ k * 10 := by ring
        omega
      have := ih (n / 10) hdiv
      simp only [List.length_append, List.length_cons, List.length_nil]
      omega

theorem padDec_length (w n : Nat) (hw : 1 ≤ w) (h : n < 10 ^ w) :
    (padDec w n).length = w := by
  unfold padDec padDec.padZeros'
  split
  · simp
    omega
  · rename_i hn
    have hlen := decDigitsCore_length_le w n h
    simp only [List.length_append, List.length_replicate]
    omega

theorem strftime_Ymd_length (y m d : Nat) (hy : y ≤ 9999) (hm : m ≤ 99) (hd : d ≤ 99) :
    (strftime_Ymd y m d).length = 8 := by
  have h4 : (10 : Nat) ^ 4 = 10000 := by norm_num
  have h2 : (10 : Nat) ^ 2 = 100 := by norm_num
  unfold strftime_Ymd
  rw [List.length_append, List.length_append,
      padDec_length 4 y (by omega) (by omega),
      padDec_length 2 m (by omega) (by omega),
      padDec_length 2 d (by omega) (by omega)]

/- Claim theorems. -/

/-- Claim C1, counterexample: an encode failure can raise an error kind
other than the type-conversion error.  The calendar-date transform
applied to a dict without a year field raises KeyError from the
val['year'] lookup, not TypeError. -/
theorem C1_cex :
    to_ck_date_enc (.vDict []) = .error .keyError ∧
    PyErr.keyError ≠ PyErr.typeError := by
  constructor
  · simp [to_ck_date_enc, lookupKey]
  · decide

/-- Claim C2, code evaluation at the failing input: the byte-array
transform encodes the hex string 0a as TWO bytes 0x0a 0x00 with length 2
(the CK_BYTE array is allocated with one slot per input character, twice
the parsed byte count), while the semantically equal list with single
element 10 encodes as ONE byte with length 1, so the two encodings do
not have the same binary content. -/
theorem C2_code_eval :
    to_byte_array_enc (.vStr (pystr "0a")) = .ok (.bytes [10, 0], 2) ∧
    to_byte_array_enc (.vList [10]) = .ok (.bytes [10], 1) ∧
    to_byte_array_enc (.vStr (pystr "0a")) ≠ to_byte_array_enc (.vList [10]) := by
  have h1 : to_byte_array_enc (.vStr (pystr "0a")) = .ok (.bytes [10, 0], 2) := by
    simp [to_byte_array_enc, pystr, chunk2, hexSlice, hexDigit]
  have h2 : to_byte_array_enc (.vList [10]) = .ok (.bytes [10], 1) := by
    simp [to_byte_array_enc]
  refine ⟨h1, h2, ?_⟩
  rw [h1, h2]
  simp

/-- Claim C3 (corrected): assembling Template with CLASS: 3, TOKEN: True,
LABEL: "mykey" yields exactly 3 records in insertion order with kinds
CLASS, TOKEN, LABEL, all with non-null value pointers, with lengths
equal to the platform unsigned-long size, 1, and 6 — the label buffer is
NUL-terminated, so its length is the string length plus one — and
leaves the registry and warning log untouched; disassembling that record
array reproduces the mapping CLASS: 3, TOKEN: True, LABEL: "mykey". -/
theorem C3_amended :
    get_c_struct c3_template [] KEY_TRANSFORMS =
      (.ok [.mk CKA_CLASS (some (.bytes (leBytes 3 sizeof_ulong))) sizeof_ulong,
            .mk CKA_TOKEN (some (.bytes [1])) 1,
            .mk CKA_LABEL (some (.bytes (pystr "mykey" ++ [0]))) 6],
       KEY_TRANSFORMS, []) ∧
    c_struct_to_python
        [.mk CKA_CLASS (some (.bytes (leBytes 3 sizeof_ulong))) sizeof_ulong,
         .mk CKA_TOKEN (some (.bytes [1])) 1,
         .mk CKA_LABEL (some (.bytes (pystr "mykey" ++ [0]))) 6] KEY_TRANSFORMS =
      (.ok [(CKA_CLASS, .vInt 3), (CKA_TOKEN, .vBool true), (CKA_LABEL, .vStr (pystr "mykey"))],
       KEY_TRANSFORMS) := by
  constructor
  · simp [get_c_struct, c3_template, applyEnc, to_long_enc, to_bool_enc, to_char_array_enc,
          lookupKey, KEY_TRANSFORMS, Registry.containsKey, Registry.getitem, ck_attribute_type,
          pystr, create_string_buffer, c_ulong_of, leBytes, sizeof_ulong]
  · simp [c_struct_to_python, c_struct_to_python_loop, applyDec, to_long_dec, to_bool_dec,
          to_char_array_dec, lookupKey, KEY_TRANSFORMS, Registry.getitem, dictInsert,
          CKAttr.pValue, CKAttr.type, leVal, c_char_p_value, pystr, leBytes, sizeof_ulong]

/-- Claim C3, counterexample: the length of the third record (LABEL,
value "mykey") is 6, not the 5 the claim states, because the fixed text
transform buffers the string with a trailing NUL byte. -/
theorem C3_cex :
    ((get_c_struct c3_template [] KEY_TRANSFORMS).1.toOption.map
        (fun recs => recs.map CKAttr.ulValueLen)) = some [8, 1, 6] ∧
    ((get_c_struct c3_template [] KEY_TRANSFORMS).1.toOption.map
        (fun recs => recs.map CKAttr.ulValueLen)) ≠ some [8, 1, 5] := by
  have h : (get_c_struct c3_template [] KEY_TRANSFORMS).1 =
      .ok [.mk CKA_CLASS (some (.bytes (leBytes 3 sizeof_ulong))) sizeof_ulong,
           .mk CKA_TOKEN (some (.bytes [1])) 1,
           .mk CKA_LABEL (some (.bytes (pystr "mykey" ++ [0]))) 6] := by
    simp [get_c_struct, c3_template, applyEnc, to_long_enc, to_bool_enc, to_char_array_enc,
          lookupKey, KEY_TRANSFORMS, Registry.containsKey, Registry.getitem, ck_attribute_type,
          pystr, create_string_buffer, c_ulong_of, leBytes, sizeof_ulong]
  rw [h]
  constructor
  · simp [Except.toOption, CKAttr.ulValueLen, sizeof_ulong]
  · simp [Except.toOption, CKAttr.ulValueLen, sizeof_ulong]

/-- Claim C4, counterexample: encoding the 8-character date string
20240101 succeeds but produces a 9-byte buffer (the 8 ASCII characters
plus a NUL terminator) with length field 9, not the 8 bytes with length
8 the claim states. -/
theorem C4_cex :
    to_ck_date_enc (.vStr (pystr "20240101")) =
      .ok (.bytes (pystr "20240101" ++ [0]), 9) ∧ (9 : Nat) ≠ 8 := by
  constructor
  · simp [to_ck_date_enc, create_string_buffer, pystr]
  · decide

/-- Claim C5, code evaluation at the failing input: the fixed text
transform's decode depends on the buffer contents before the length
position: a record whose 3-byte buffer holds bytes 97 0 98 with length
3 decodes to the 1-character text 97 (c_char_p truncates at the first
NUL), not the full 3 bytes the claim requires. -/
theorem C5_code_eval :
    to_char_array_dec (.mk CKA_LABEL (some (.bytes [97, 0, 98])) 3) = .ok (.vStr [97]) ∧
    to_char_array_dec (.mk CKA_LABEL (some (.bytes [97, 0, 98])) 3) ≠ .ok (.vStr [97, 0, 98]) := by
  have h : to_char_array_dec (.mk CKA_LABEL (some (.bytes [97, 0, 98])) 3) = .ok (.vStr [97]) := by
    simp [to_char_array_dec, c_char_p_value, List.takeWhile]
  refine ⟨h, ?_⟩
  rw [h]
  simp

/-- Claim C6, counterexample: a single assemble of a template holding
the unregistered kind 39321 grows the registry: the defaultdict
subscript lookup inserts that kind, so the set of registered kinds
changes from the initial table to the table plus 39321. -/
theorem C6_cex :
    KEY_TRANSFORMS.containsKey (.ki 39321) = false ∧
    (get_c_struct [(.ki 39321, .vList [10])] [] KEY_TRANSFORMS).2.1.kinds =
      KEY_TRANSFORMS.kinds ++ [.ki 39321] := by
  constructor
  · decide
  · simp [get_c_struct, applyEnc, to_byte_array_enc, lookupKey, KEY_TRANSFORMS,
          Registry.containsKey, Registry.getitem, ck_attribute_type, Registry.kinds]

/-- Claim C7, counterexample: the warning for an unregistered kind is
observable only on the FIRST assemble: assembling the same template a
second time (against the registry state the first call produced) warns
about nothing, because the first call's defaultdict lookup registered
the kind. -/
theorem C7_cex :
    KEY_TRANSFORMS.containsKey (.ki 39321) = false ∧
    (get_c_struct [(.ki 39321, .vList [10])] [] KEY_TRANSFORMS).2.2 = [.ki 39321] ∧
    (get_c_struct [(.ki 39321, .vList [10])] []
        (get_c_struct [(.ki 39321, .vList [10])] [] KEY_TRANSFORMS).2.1).2.2 = [] := by
  refine ⟨by decide, ?_, ?_⟩
  · simp [get_c_struct, applyEnc, to_byte_array_enc, lookupKey, KEY_TRANSFORMS,
          Registry.containsKey, Registry.getitem, ck_attribute_type]
  · simp [get_c_struct, applyEnc, to_byte_array_enc, lookupKey, KEY_TRANSFORMS,
          Registry.containsKey, Registry.getitem, ck_attribute_type]

/-- Claim C8, counterexample: the input 0 is a non-negative integer for
which the byte count does not follow the claimed rounding rule: the code
produces one byte (value 0) because the binary rendering of 0 is the
single digit 0, while padded_width = bit_length + (8 - (bit_length % 8
or 8)) evaluates to 0 for bit_length 0, which would mean zero bytes. -/
theorem C8_cex :
    to_byte_array_enc (.vInt 0) = .ok (.bytes [0], 1) ∧
    paddedWidth (pyBitLength 0) = 0 ∧
    (8 : Nat) * 1 ≠ paddedWidth (pyBitLength 0) := by
  refine ⟨?_, ?_, ?_⟩
  · simp [to_byte_array_enc, to_byte_array_int, pyBitLength, pyFormatBin, binDigits,
          padZeros, chunk8, int_base2, baseVal]
  · simp [paddedWidth, pyBitLength]
  · simp [paddedWidth, pyBitLength]

/-- Claim C9, code evaluation at the failing input: the composite
transform applied to the mapping with the integer attribute kind CLASS
mapped to the byte list [10] raises TypeError: Attributes(**val) expands
the mapping as keyword arguments and CPython requires keyword names to
be strings, so every mapping keyed by integer attribute kinds fails
instead of assembling the nested record array. -/
theorem C9_code_eval :
    to_sub_attributes_enc (.vDict [(.ki CKA_CLASS, .vList [10])]) KEY_TRANSFORMS =
      (.error .typeError, KEY_TRANSFORMS, []) := by
  simp [to_sub_attributes_enc]

/-- Claim C10, code evaluation at the failing input: the fixed text
transform applied to the list [97, 98] raises TypeError rather than
returning a pointer-and-length pair: the list branch builds a bytearray
and then calls ctypes pointer() on it, which rejects the non-ctypes
bytearray instance. -/
theorem C10_code_eval :
    to_char_array_enc (.vList [97, 98]) = .error .typeError ∧
    ∀ res : EncRes, to_char_array_enc (.vList [97, 98]) ≠ .ok res := by
  constructor
  · simp [to_char_array_enc]
  · intro res
    simp [to_char_array_enc]

/-- Claim C1 (amended): for every transform and every input whose
runtime type is outside that transform's accepted domain, and for every
date string whose length is not 8, the encode call raises the single
type-conversion error kind (Python TypeError); but not every encode
failure raises that kind: an accepted-type input with an invalid value
can raise another kind, for example a byte list holding an element
outside 0..255 raises ValueError (and a date mapping missing its year
raises KeyError, theorem C1_cex). -/
theorem C1_amended (t : Transform) (v : PyVal) (reg : Registry) (s : List Nat)
    (hv : acceptedType t v = false) (hs : s.length ≠ 8) :
    (applyEnc t v reg).1 = .error .typeError ∧
    to_ck_date_enc (.vStr s) = .error .typeError ∧
    to_byte_array_enc (.vList [300]) = .error .valueError := by
  refine ⟨?_, ?_, ?_⟩
  · cases t <;> cases v <;>
      simp_all [acceptedType, applyEnc, to_long_enc, to_bool_enc, to_char_array_enc,
                to_ck_date_enc, to_byte_array_enc, to_sub_attributes_enc]
  · simp [to_ck_date_enc, hs]
  · simp [to_byte_array_enc]

/-- Claim C1, witness: the unsigned-long transform rejects a string with
TypeError, the 7-character date string is rejected with TypeError, and
the out-of-range byte list raises ValueError. -/
theorem C1_witness :
    (applyEnc .toLong (.vStr (pystr "x")) KEY_TRANSFORMS).1 = .error .typeError ∧
    to_ck_date_enc (.vStr (pystr "2024010")) = .error .typeError ∧
    to_byte_array_enc (.vList [300]) = .error .valueError :=
  C1_amended .toLong (.vStr (pystr "x")) KEY_TRANSFORMS (pystr "2024010")
    (by decide) (by decide)

/-- Claim C4 (amended): every accepted calendar-date input yields the
rendered text plus a trailing NUL byte, with the length field one more
than the text length: an 8-character string yields a 9-byte buffer with
length 9 (not 8 as claimed); a string of any other length fails with the
type-conversion error; a date value (with a 4-digit year, as
datetime.date renders zero-padded) yields its 8 formatted characters
plus NUL, length 9; a mapping with year/month/day string fields yields
the concatenation plus NUL with length one more than the concatenation. -/
theorem C4_amended (s t sy sm sd : List Nat) (y m d : Nat)
    (hs : s.length = 8) (ht : t.length ≠ 8)
    (hy1 : 1000 ≤ y) (hy2 : y ≤ 9999) (hm : m ≤ 99) (hd : d ≤ 99) :
    to_ck_date_enc (.vStr s) = .ok (.bytes (s ++ [0]), 9) ∧
    to_ck_date_enc (.vStr t) = .error .typeError ∧
    to_ck_date_enc (.vDate y m d) = .ok (.bytes (strftime_Ymd y m d ++ [0]), 9) ∧
    to_ck_date_enc (.vDict [(.ks (pystr "year"), .vStr sy), (.ks (pystr "month"), .vStr sm),
                            (.ks (pystr "day"), .vStr sd)]) =
      .ok (.bytes ((sy ++ sm ++ sd) ++ [0]), (sy ++ sm ++ sd).length + 1) := by
  have hyear : pystr "year" = [121, 101, 97, 114] := by decide
  have hmonth : pystr "month" = [109, 111, 110, 116, 104] := by decide
  have hday : pystr "day" = [100, 97, 121] := by decide
  refine ⟨?_, ?_, ?_, ?_⟩
  · simp [to_ck_date_enc, hs, create_string_buffer]
  · simp [to_ck_date_enc, ht]
  · simp [to_ck_date_enc, create_string_buffer, strftime_Ymd_length y m d hy2 hm hd]
  · simp [to_ck_date_enc, lookupKey, pyAdd, create_string_buffer_py, create_string_buffer,
          hyear, hmonth, hday]
    omega

/-- Claim C4, witness: encoding the date string 20240101 yields its 8
ASCII bytes plus NUL with length 9, the 7-character 2024010 fails, the
date 2024-01-01 yields its formatted text plus NUL, and a mapping of
string fields concatenates. -/
theorem C4_witness :
    to_ck_date_enc (.vStr (pystr "20240101")) = .ok (.bytes (pystr "20240101" ++ [0]), 9) ∧
    to_ck_date_enc (.vStr (pystr "2024010")) = .error .typeError ∧
    to_ck_date_enc (.vDate 2024 1 1) = .ok (.bytes (strftime_Ymd 2024 1 1 ++ [0]), 9) ∧
    to_ck_date_enc (.vDict [(.ks (pystr "year"), .vStr (pystr "2024")),
                            (.ks (pystr "month"), .vStr (pystr "01")),
                            (.ks (pystr "day"), .vStr (pystr "01"))]) =
      .ok (.bytes ((pystr "2024" ++ pystr "01" ++ pystr "01") ++ [0]),
           (pystr "2024" ++ pystr "01" ++ pystr "01").length + 1) :=
  C4_amended (pystr "20240101") (pystr "2024010") (pystr "2024") (pystr "01") (pystr "01")
    2024 1 1 (by decide) (by decide) (by decide) (by decide) (by decide) (by decide)

/-- Claim C6 (amended): a registry lookup never changes or removes an
existing registration and never changes the transform any later lookup
returns (the initial table is a sublist of the post-lookup table, and
lookups are pointwise unchanged), but the registry is not read-only: a
lookup of an unregistered kind appends that kind, registered to the
default byte-array transform, so the set of registered kinds can grow. -/
theorem C6_amended (r : Registry) (k : PyKey) :
    List.Sublist r.table (r.getitem k).2.table ∧
    (∀ k2 : PyKey, ((r.getitem k).2.getitem k2).1 = (r.getitem k2).1) ∧
    ((r.getitem k).2.kinds = r.kinds ∨ (r.getitem k).2.kinds = r.kinds ++ [k]) := by
  cases h : lookupKey r.table k with
  | some t =>
    have hr : (r.getitem k).2 = r := by
      unfold Registry.getitem
      rw [h]
    rw [hr]
    exact ⟨List.Sublist.refl _, fun k2 => rfl, Or.inl rfl⟩
  | none =>
    have hr : (r.getitem k).2 = ⟨r.table ++ [(k, .toByteArray)]⟩ := by
      unfold Registry.getitem
      rw [h]
    refine ⟨?_, ?_, ?_⟩
    · rw [hr]
      exact List.sublist_append_left _ _
    · intro k2
      rw [hr]
      unfold Registry.getitem
      rw [lookupKey_append]
      cases h2 : lookupKey r.table k2 with
      | some t2 => rfl
      | none =>
        rcases eq_or_ne k k2 with hkk | hkk
        · simp [lookupKey, hkk]
        · simp [lookupKey, hkk]
    · right
      rw [hr]
      simp [Registry.kinds]

/-- Claim C6, witness: the lookup facts instantiated at the initial
registry and an unregistered kind. -/
theorem C6_witness :
    List.Sublist KEY_TRANSFORMS.table (KEY_TRANSFORMS.getitem (.ki 39321)).2.table ∧
    (∀ k2 : PyKey, ((KEY_TRANSFORMS.getitem (.ki 39321)).2.getitem k2).1 =
      (KEY_TRANSFORMS.getitem k2).1) ∧
    ((KEY_TRANSFORMS.getitem (.ki 39321)).2.kinds = KEY_TRANSFORMS.kinds ∨
      (KEY_TRANSFORMS.getitem (.ki 39321)).2.kinds = KEY_TRANSFORMS.kinds ++ [.ki 39321]) :=
  C6_amended KEY_TRANSFORMS (.ki 39321)

/-- Claim C7 (amended): assembling a template holding an unregistered
kind with a value in the byte-array domain does not raise, encodes the
entry with the default byte-array transform, and emits a warning for
that entry — but only on assembles performed while the kind is still
unregistered: the defaultdict lookup registers the kind, so assembling
the same template again against the resulting registry emits no warning
(and produces the same record). -/
theorem C7_amended (r : Registry) (k : Nat) (xs : List Int)
    (hk : lookupKey r.table (.ki k) = none)
    (hxs : ∀ x ∈ xs, 0 ≤ x ∧ x < 256) :
    get_c_struct [(.ki k, .vList xs)] [] r =
      (.ok [.mk (k % 2 ^ 64) (some (.bytes (xs.map Int.toNat))) xs.length],
       ⟨r.table ++ [(.ki k, .toByteArray)]⟩, [.ki k]) ∧
    get_c_struct [(.ki k, .vList xs)] [] ⟨r.table ++ [(.ki k, .toByteArray)]⟩ =
      (.ok [.mk (k % 2 ^ 64) (some (.bytes (xs.map Int.toNat))) xs.length],
       ⟨r.table ++ [(.ki k, .toByteArray)]⟩, []) := by
  have h2 : lookupKey (r.table ++ [(.ki k, .toByteArray)]) (.ki k) = some .toByteArray := by
    rw [lookupKey_append, hk]
    simp [lookupKey]
  constructor
  · simp [get_c_struct, applyEnc, to_byte_array_enc, Registry.containsKey, Registry.getitem,
          hk, ck_attribute_type, lookupKey]
    rw [if_pos hxs]
  · simp [get_c_struct, applyEnc, to_byte_array_enc, Registry.containsKey, Registry.getitem,
          h2, ck_attribute_type, lookupKey]
    rw [if_pos hxs]

/-- Claim C7, witness: the two-assemble behavior instantiated at the
initial registry, the unregistered kind 39321 and the byte list [10]. -/
theorem C7_witness :
    get_c_struct [(.ki 39321, .vList [10])] [] KEY_TRANSFORMS =
      (.ok [.mk (39321 % 2 ^ 64) (some (.bytes ([10].map Int.toNat))) ([10] : List Int).length],
       ⟨KEY_TRANSFORMS.table ++ [(.ki 39321, .toByteArray)]⟩, [.ki 39321]) ∧
    get_c_struct [(.ki 39321, .vList [10])] []
        ⟨KEY_TRANSFORMS.table ++ [(.ki 39321, .toByteArray)]⟩ =
      (.ok [.mk (39321 % 2 ^ 64) (some (.bytes ([10].map Int.toNat))) ([10] : List Int).length],
       ⟨KEY_TRANSFORMS.table ++ [(.ki 39321, .toByteArray)]⟩, []) :=
  C7_amended KEY_TRANSFORMS 39321 [10] (by decide) (by decide)

/-- Claim C8 (amended): for every POSITIVE integer input the byte-array
transform produces its big-endian byte representation — the bytes read
back as the input value and each byte is below 256 — whose byte count
follows the rounding rule 8 * count = padded_width with padded_width =
bit_length + (8 - (bit_length % 8 or 8)), so an exact multiple of 8 bits
is not padded further; the claim fails only at input 0 (see the
counterexample), which produces one byte although the rule computes
width 0. -/
theorem C8_amended (n : Nat) (h : 0 < n) :
    ∃ bs : List Nat,
      to_byte_array_enc (.vInt (n : Int)) = .ok (.bytes bs, bs.length) ∧
      8 * bs.length = paddedWidth (pyBitLength n) ∧
      baseVal 256 bs = n ∧
      ∀ b ∈ bs, b < 256 := by
  have hne : n ≠ 0 := by omega
  have hna : ((n : Int)).natAbs = n := Int.natAbs_ofNat n
  have hneg : ¬ ((n : Int) < 0) := by omega
  have hblpos : 0 < pyBitLength n := pyBitLength_pos n h
  have hwi : paddedWidth (pyBitLength n) =
      pyBitLength n + (8 - (if pyBitLength n % 8 = 0 then 8 else pyBitLength n % 8)) := rfl
  have hw8 : paddedWidth (pyBitLength n) % 8 = 0 := by
    rw [hwi]
    split <;> omega
  have hwge : pyBitLength n ≤ paddedWidth (pyBitLength n) := by
    rw [hwi]
    split <;> omega
  have hdl : (binDigitsCore n).length = pyBitLength n := binDigitsCore_length n
  have hfmt : pyFormatBin (n : Int) (paddedWidth (pyBitLength n)) =
      padZeros (paddedWidth (pyBitLength n)) (binDigitsCore n) := by
    unfold pyFormatBin
    rw [if_neg hneg]
    have ht : ((n : Int)).toNat = n := rfl
    rw [ht]
    unfold binDigits
    rw [if_neg hne]
  have hLlen : (padZeros (paddedWidth (pyBitLength n)) (binDigitsCore n)).length =
      paddedWidth (pyBitLength n) := padZeros_length _ _ (by rw [hdl]; exact hwge)
  have hLmem : ∀ x ∈ padZeros (paddedWidth (pyBitLength n)) (binDigitsCore n), x ≤ 1 := by
    intro x hx
    rcases padZeros_mem _ _ x hx with hx2 | hx2
    · exact binDigitsCore_mem n x hx2
    · omega
  have hLmod : (padZeros (paddedWidth (pyBitLength n)) (binDigitsCore n)).length % 8 = 0 := by
    rw [hLlen]
    exact hw8
  have hLval : baseVal 2 (padZeros (paddedWidth (pyBitLength n)) (binDigitsCore n)) = n := by
    rw [baseVal_pad, binDigitsCore_val]
  refine ⟨(chunk8 (padZeros (paddedWidth (pyBitLength n)) (binDigitsCore n))).map
      (fun c => (int_base2 c % 256).toNat), ?_, ?_, ?_, ?_⟩
  · have henc : to_byte_array_enc (.vInt (n : Int)) = .ok (to_byte_array_int (n : Int)) := by
      simp [to_byte_array_enc]
    have hint : to_byte_array_int (n : Int) =
        (.bytes ((chunk8 (pyFormatBin (n : Int) (paddedWidth (pyBitLength n)))).map
            (fun c => (int_base2 c % 256).toNat)),
         (chunk8 (pyFormatBin (n : Int) (paddedWidth (pyBitLength n)))).length) := by
      simp only [to_byte_array_int, hna]
      rfl
    rw [henc, hint, hfmt, List.length_map]
  · rw [List.length_map]
    have hcl := chunk8_len_mul _ hLmod
    rw [hLlen] at hcl
    omega
  · rw [beVal_chunks _ hLmod hLmem, hLval]
  · intro b hb
    rw [List.mem_map] at hb
    obtain ⟨c, hc, hbc⟩ := hb
    rw [← hbc]
    exact emod256_toNat_lt _

/-- Claim C8, witness: the rounding-rule properties applied at 255, and
the concrete byte images the claim names: encode of 255 (8 bits) yields
exactly the single byte 255, and encode of 256 (9 bits) yields exactly
the two big-endian bytes 1 0. -/
theorem C8_witness :
    (∃ bs : List Nat,
      to_byte_array_enc (.vInt ((255 : Nat) : Int)) = .ok (.bytes bs, bs.length) ∧
      8 * bs.length = paddedWidth (pyBitLength 255) ∧
      baseVal 256 bs = 255 ∧
      ∀ b ∈ bs, b < 256) ∧
    to_byte_array_enc (.vInt 255) = .ok (.bytes [255], 1) ∧
    to_byte_array_enc (.vInt 256) = .ok (.bytes [1, 0], 2) := by
  refine ⟨C8_amended 255 (by decide), ?_, ?_⟩
  · simp [to_byte_array_enc, to_byte_array_int, pyBitLength, pyFormatBin, binDigits,
          binDigitsCore, padZeros, chunk8, int_base2, baseVal]
  · simp [to_byte_array_enc, to_byte_array_int, pyBitLength, pyFormatBin, binDigits,
          binDigitsCore, padZeros, chunk8, int_base2, baseVal]

end Pycryptoki
